import Mathlib

/-!
# Ingestion routines of `main.go`

A shallow embedding of the two fetchers of `main.go` (`getGitHubIssues`,
`getSOQuestions`), the record types they build, the two API-call counters and
the row written by `storeSOQuestion`, followed by the properties proved about
them.

Modelling conventions.

* A Go `panic` ends the run; a function that may panic returns `Except Panic _`.
* The paging loop of `getGitHubIssues` has no bound in the source; it is
  embedded with a fuel argument and returns `none` when the fuel runs out.
* The remote services are inputs: the issue-list endpoint is a function
  giving, for the n-th request of a run and the page it asks for, what
  `client.Issues.ListByRepo` returns; the question endpoint is the outcome of
  `http.Get` together with the document that `Decode` leaves behind.
* The two Prometheus counters are the fields of `Metrics`, threaded through
  the calls.
* The local time zone of the process is the argument `loc` of the functions
  that convert `closed_date`.
-/

set_option autoImplicit false

namespace PgGo

/-! ## Panics -/

/-- Payload of a Go `panic` raised by the program. -/
inductive Panic where
  /-- `panic(err)` with the text of the error. -/
  | error (err : String)
  /-- `panic("...")` with a literal message. -/
  | message (msg : String)
  /-- Run-time panic of a failed type assertion `x.(T)`. -/
  | interfaceConversion
deriving DecidableEq, Repr

/-! ## `time.Time` -/

/-- Go `time.Time` as an instant: seconds elapsed since
0001-01-01T00:00:00Z and nanoseconds within the second. The zero value of
the Go type has both fields zero. The location of a value is not stored:
`time.Unix` yields a time in the local zone of the process, which the one
operation that reads it, `Time.MarshalJSON`, takes as an argument. -/
structure Time where
  sec : Int
  nsec : Nat
deriving DecidableEq, Repr

/-- The zero value `time.Time{}`. -/
def Time.zero : Time := { sec := 0, nsec := 0 }

/-- Seconds between 0001-01-01T00:00:00Z and the Unix epoch
(`unixToInternal` of package `time`). -/
def unixToInternal : Int := 62135596800

/-- The call `time.Unix(sec, nsec)` for `0 ≤ nsec < 1e9`; the result is in
the local zone. -/
def Time.Unix (sec : Int) (nsec : Nat) : Time :=
  { sec := sec + unixToInternal, nsec := nsec }

/-- The call `t.Unix()`: seconds since the Unix epoch. -/
def Time.toUnix (t : Time) : Int := t.sec - unixToInternal

/-- Unix second of 0000-01-01T00:00:00Z, the first instant of year 0. -/
def yearZeroUnix : Int := -62167219200

/-- Unix second of 10000-01-01T00:00:00Z, the first instant of year 10000. -/
def yearTenThousandUnix : Int := 253402300800

/-- Go `*time.Location` reduced to what the program depends on: the offset,
in seconds east of UTC, that the zone has in force at a Unix second. Offsets
of a time zone stay below one day in absolute value. -/
structure Location where
  offset : Int → Int
  bounded : ∀ s, -86400 < offset s ∧ offset s < 86400

/-- The zone `time.UTC`. -/
def UTC : Location :=
  { offset := fun _ => 0
    bounded := by intro _; simp }

/-- The zone Asia/Tokyo without its summer time of 1948 to 1951: local mean
time +09:18:59 before 1887-12-31T15:00:00Z, +09:00 from then on. -/
def tokyo : Location :=
  { offset := fun s => if s < -2587712400 then 33539 else 32400
    bounded := fun s => by by_cases h : s < -2587712400 <;> simp [h] }

/-- An RFC 3339 text as produced by `Time.MarshalJSON`: the date and time
of day it shows, counted in seconds from 1970-01-01T00:00:00 of the same
wall clock, and the zone offset it shows, which is written in hours and
minutes only. -/
structure RFC3339 where
  wallSec : Int
  nsec : Nat
  offsetMinutes : Int
deriving DecidableEq, Repr

/-- The call `t.MarshalJSON()` for a `t` whose location is `loc`: the quoted
RFC 3339 text of `t` in that zone, an error when the year shown lies outside
`[0, 9999]`. The offset is written as `offset / 60` minutes, Go's division
truncating toward zero. -/
def Time.MarshalJSON (loc : Location) (t : Time) : Except String RFC3339 :=
  if yearZeroUnix ≤ t.toUnix + loc.offset t.toUnix ∧
      t.toUnix + loc.offset t.toUnix < yearTenThousandUnix then
    .ok { wallSec := t.toUnix + loc.offset t.toUnix, nsec := t.nsec,
          offsetMinutes := (loc.offset t.toUnix).tdiv 60 }
  else
    .error "Time.MarshalJSON: year outside of range [0,9999]"

/-- The call `json.Unmarshal(text, &t)` for a text produced by
`Time.MarshalJSON`: the instant that shows the text's wall clock in a zone
of the text's offset. -/
def Time.UnmarshalJSON (text : RFC3339) : Except String Time :=
  .ok (Time.Unix (text.wallSec - 60 * text.offsetMinutes) text.nsec)

/-- The conversion `int64(f)` of a `float64` holding the integer `f`: exact
inside the `int64` range, the smallest `int64` outside of it (amd64). -/
def int64 (f : Int) : Int :=
  if -(2 : Int) ^ 63 ≤ f ∧ f < (2 : Int) ^ 63 then f else -(2 : Int) ^ 63

/-! ## Untyped JSON documents -/

/-- A value of type `interface{}` as built by `encoding/json`: `nil`, `bool`,
`float64`, `string`, `[]interface{}` or `map[string]interface{}`. A number
is represented by its integer part: the only operation the program applies
to a number is the conversion `int64(·)`. A map is an association list read
with `List.lookup`. -/
inductive JSON where
  | null
  | bool (b : Bool)
  | num (f : Int)
  | str (s : String)
  | arr (xs : List JSON)
  | obj (kvs : List (String × JSON))

/-- The Go idiom `if v, ok := m[key]; ok && v != nil`: the value under `key`
when the key is present with a non-nil value. -/
def present (m : List (String × JSON)) (key : String) : Option JSON :=
  match m.lookup key with
  | none => none
  | some .null => none
  | some v => some v

/-! ## Record types -/

/-- Go struct `SOAnswer`. -/
structure SOAnswer where
  Body : String
deriving DecidableEq, Repr

/-- Go struct `SOQuestion`. -/
structure SOQuestion where
  Title : String
  Body : String
  Answers : List SOAnswer
  Created_At : Time
  Closed_At : Time
  Technology : String
deriving DecidableEq, Repr

/-- Go struct `GithubIssue`. -/
structure GithubIssue where
  Title : String
  Number : Int
  Created_At : Time
  Closed_At : Time
  Repo : String
deriving DecidableEq, Repr

/-- The fields of `github.Issue` read by the program; every field is a
pointer in the library, `none` is the nil pointer. -/
structure Issue where
  Title : Option String
  Number : Option Int
  CreatedAt : Option Time
  ClosedAt : Option Time
deriving DecidableEq, Repr

/-- The getter `issue.GetTitle()` on a `*github.Issue` (`none` is the nil pointer). -/
def GetTitle (issue : Option Issue) : String :=
  match issue with
  | some i => i.Title.getD ""
  | none => ""

/-- The getter `issue.GetNumber()`. -/
def GetNumber (issue : Option Issue) : Int :=
  match issue with
  | some i => i.Number.getD 0
  | none => 0

/-- The value `issue.GetCreatedAt().Time`. -/
def GetCreatedAt (issue : Option Issue) : Time :=
  match issue with
  | some i => i.CreatedAt.getD Time.zero
  | none => Time.zero

/-- The value `issue.GetClosedAt().Time`. -/
def GetClosedAt (issue : Option Issue) : Time :=
  match issue with
  | some i => i.ClosedAt.getD Time.zero
  | none => Time.zero

/-- The field of `github.Response` read by the program. -/
structure Response where
  NextPage : Int
deriving DecidableEq, Repr

/-- The two counters `github_api_calls_total` and
`stackoverflow_api_calls_total`. -/
structure Metrics where
  githubAPICalls : Nat
  stackoverflowAPICalls : Nat
deriving DecidableEq, Repr

/-! ## `getGitHubIssues` -/

/-- What `client.Issues.ListByRepo(ctx, repoOwner, repo, opt)` returns: the
first argument is the number of requests the run has made before this one,
the last the page number held in `opt.Page`. -/
abbrev IssuesClient :=
  Nat → String → String → Int → Except String (List (Option Issue) × Response)

/-- The `for` loop of `getGitHubIssues`. `page` is `opt.Page`, `allIssues`
the accumulator; `requested` records the page number of every call made so
far. `none` when the fuel is used up before the loop breaks. -/
def pagingLoop (client : IssuesClient) (repoOwner repo : String) :
    Nat → Int → List (Option Issue) → List Int →
      Option (Except Panic (List (Option Issue) × List Int))
  | 0, _, _, _ => none
  | fuel + 1, page, allIssues, requested =>
    match client requested.length repoOwner repo page with
    | .error err => some (.error (.error err))
    | .ok (issues, resp) =>
      if resp.NextPage = 0 then
        some (.ok (allIssues ++ issues, requested ++ [page]))
      else
        pagingLoop client repoOwner repo fuel resp.NextPage (allIssues ++ issues)
          (requested ++ [page])

/-- The record appended for one raw issue. -/
def toGithubIssue (repo : String) (issue : Option Issue) : GithubIssue :=
  { Title := GetTitle issue
    Number := GetNumber issue
    Created_At := GetCreatedAt issue
    Closed_At := GetClosedAt issue
    Repo := repo }

/-- The function `getGitHubIssues(repoOwner, repo)`: page through the issue list from
`opt.Page = 0`, map every accumulated raw issue, increment
`githubAPICalls` once and return. -/
def getGitHubIssues (client : IssuesClient) (repoOwner repo : String) (fuel : Nat)
    (m : Metrics) : Option (Except Panic (List GithubIssue × Metrics)) :=
  match pagingLoop client repoOwner repo fuel 0 [] [] with
  | none => none
  | some (.error p) => some (.error p)
  | some (.ok (allIssues, _)) =>
    some (.ok (allIssues.map (toGithubIssue repo),
      { m with githubAPICalls := m.githubAPICalls + 1 }))

/-! ## `getSOQuestions` -/

/-- Outcome of `http.Get(apiURL)` followed by `Decode(&result)`: a transport
error, or a response whose body is `none` when it is not a JSON text and the
parsed value otherwise. -/
inductive HTTPResult where
  | transportError (err : String)
  | body (parsed : Option JSON)

/-- The map left in `result` by `json.NewDecoder(res.Body).Decode(&result)`;
`none` is the nil map, which is what a body that is not a JSON object leaves.
The error returned by `Decode` is dropped by the program. -/
def decodeResult (parsed : Option JSON) : Option (List (String × JSON)) :=
  match parsed with
  | some (.obj kvs) => some kvs
  | _ => none

/-- The lookup `result["items"]`; indexing a nil map yields nil. -/
def resultItems (result : Option (List (String × JSON))) : JSON :=
  match result with
  | none => .null
  | some kvs => (kvs.lookup "items").getD .null

/-- Body of the inner loop for one entry of `answers`: the value of the local
`answer` when the body ends, and the panic raised, if any. -/
def answerStep (ans : JSON) : SOAnswer × Option Panic :=
  match ans with
  | .obj am =>
    match present am "body" with
    | some (.str s) => ({ Body := s }, none)
    | some _ => ({ Body := "" }, some .interfaceConversion)
    | none => ({ Body := "No answers yet" }, some (.message "Answer body is missing or nil"))
  | _ => ({ Body := "" }, some .interfaceConversion)

/-- The loop over `answers.([]interface{})`. -/
def answersLoop : List JSON → List SOAnswer → Except Panic (List SOAnswer)
  | [], answerList => .ok answerList
  | ans :: rest, answerList =>
    match answerStep ans with
    | (_, some p) => .error p
    | (answer, none) => answersLoop rest (answerList ++ [answer])

/-- The `title` block: required, a string. -/
def titleStep (q : List (String × JSON)) : Except Panic String :=
  match present q "title" with
  | some (.str s) => .ok s
  | some _ => .error .interfaceConversion
  | none => .error (.message "Title is missing or nil")

/-- The `body` block: a string, `"No Body"` when missing. -/
def bodyStep (q : List (String × JSON)) : Except Panic String :=
  match present q "body" with
  | some (.str s) => .ok s
  | some _ => .error .interfaceConversion
  | none => .ok "No Body"

/-- The `closed_date` block: the field `Closed_At` after it; `loc` is the
local zone of the process, in which `time.Unix` places its result. -/
def closedStep (loc : Location) (q : List (String × JSON)) : Except Panic Time :=
  match present q "closed_date" with
  | none => .ok Time.zero
  | some (.num f) =>
    match (Time.Unix (int64 f) 0).MarshalJSON loc with
    | .ok closedTime =>
      match Time.UnmarshalJSON closedTime with
      | .ok t => .ok t
      | .error err => .error (.error err)
    | .error err => .error (.error err)
  | some _ => .error .interfaceConversion

/-- The `answers` block: the field `Answers` after it. -/
def answersStep (q : List (String × JSON)) : Except Panic (List SOAnswer) :=
  match present q "answers" with
  | none => .ok []
  | some (.arr answers) => answersLoop answers []
  | some _ => .error .interfaceConversion

/-- Body of the outer loop for one element of `items`: the record appended
to `questions`. -/
def questionStep (loc : Location) (technology : String) (item : JSON) :
    Except Panic SOQuestion :=
  match item with
  | .obj q =>
    match titleStep q with
    | .error p => .error p
    | .ok title =>
      match bodyStep q with
      | .error p => .error p
      | .ok body =>
        match closedStep loc q with
        | .error p => .error p
        | .ok closed =>
          match answersStep q with
          | .error p => .error p
          | .ok answers =>
            .ok { Title := title, Body := body, Answers := answers,
                  Created_At := Time.zero, Closed_At := closed,
                  Technology := technology }
  | _ => .error .interfaceConversion

/-- The loop over `result["items"].([]interface{})`. -/
def questionsLoop (loc : Location) (technology : String) :
    List JSON → List SOQuestion → Except Panic (List SOQuestion)
  | [], questions => .ok questions
  | item :: rest, questions =>
    match questionStep loc technology item with
    | .error p => .error p
    | .ok question => questionsLoop loc technology rest (questions ++ [question])

/-- The function `getSOQuestions(technology)` on the outcome `res` of the request. -/
def getSOQuestions (loc : Location) (technology : String) (res : HTTPResult) (m : Metrics) :
    Except Panic (List SOQuestion × Metrics) :=
  match res with
  | .transportError err => .error (.error err)
  | .body parsed =>
    match resultItems (decodeResult parsed) with
    | .arr items =>
      match questionsLoop loc technology items [] with
      | .error p => .error p
      | .ok questions =>
        .ok (questions, { m with stackoverflowAPICalls := m.stackoverflowAPICalls + 1 })
    | _ => .error .interfaceConversion

/-! ## `storeSOQuestion` -/

/-- A row of `so_posts` without its serial `id`. -/
structure SoPost where
  title : String
  body : String
  created_at : Time
  closed_at : Time
  technology : String
deriving DecidableEq, Repr

/-- The function `storeSOQuestion(question, db)`: one `INSERT INTO so_posts`; `execErr` is
the error returned by `db.Exec`, if any. -/
def storeSOQuestion (question : SOQuestion) (so_posts : List SoPost)
    (execErr : Option String) : Except Panic (List SoPost) :=
  match execErr with
  | some err => .error (.error err)
  | none =>
    .ok (so_posts ++ [{ title := question.Title, body := question.Body,
                        created_at := question.Created_At,
                        closed_at := question.Closed_At,
                        technology := question.Technology }])

/-! ## Vocabulary of the statements -/

/-- The `closed_date` field of an item is absent, null, or a number of
seconds whose instant, shown in the zone `loc`, lies in the years 0 to
9999. -/
def ClosedDateAccepted (loc : Location) (q : List (String × JSON)) : Prop :=
  q.lookup "closed_date" = none ∨ q.lookup "closed_date" = some .null ∨
    ∃ f, q.lookup "closed_date" = some (.num f) ∧ yearZeroUnix ≤ f + loc.offset f ∧
      f + loc.offset f < yearTenThousandUnix

/-- The `answers` field of an item is absent, null, or a sequence of objects
that each carry a string `body`. -/
def AnswersAccepted (q : List (String × JSON)) : Prop :=
  q.lookup "answers" = none ∨ q.lookup "answers" = some .null ∨
    ∃ answers, q.lookup "answers" = some (.arr answers) ∧
      ∀ ans ∈ answers, ∃ am s, ans = JSON.obj am ∧ am.lookup "body" = some (.str s)

/-- What a well-formed question item carries: a string title, a string body
or none, and the string bodies of its answers or no `answers` key. -/
structure ItemShape where
  title : String
  body : Option String
  answers : Option (List String)

/-- The item is a JSON object of the given shape: string `title`, `body` a
string or absent, `closed_date` absent, `answers` absent or a sequence of
objects with string bodies. Other keys are unconstrained. -/
def HasShape (item : JSON) (s : ItemShape) : Prop :=
  ∃ q, item = .obj q ∧ q.lookup "title" = some (.str s.title) ∧
    (match s.body with
      | some b => q.lookup "body" = some (.str b)
      | none => q.lookup "body" = none) ∧
    q.lookup "closed_date" = none ∧
    (match s.answers with
      | some bodies => ∃ answers, q.lookup "answers" = some (.arr answers) ∧
          List.Forall₂ (fun ans b => ∃ am, ans = JSON.obj am ∧
            am.lookup "body" = some (.str b)) answers bodies
      | none => q.lookup "answers" = none)

/-- The record the specification prescribes for an item of shape `s`. -/
def expectedRecord (tag : String) (s : ItemShape) : SOQuestion :=
  { Title := s.title
    Body := s.body.getD "No Body"
    Answers := (s.answers.getD []).map SOAnswer.mk
    Created_At := Time.zero
    Closed_At := Time.zero
    Technology := tag }

/-- A decoding, type-assertion or required-field failure inside one element
of `items`. -/
inductive ItemDefect : JSON → Prop where
  | notObject (item : JSON) (h : ∀ q, item ≠ .obj q) : ItemDefect item
  | titleMissing (q : List (String × JSON))
      (h : q.lookup "title" = none ∨ q.lookup "title" = some .null) : ItemDefect (.obj q)
  | titleNotString (q : List (String × JSON)) (v : JSON) (h : q.lookup "title" = some v)
      (hnull : v ≠ .null) (hstr : ∀ s, v ≠ .str s) : ItemDefect (.obj q)
  | bodyNotString (q : List (String × JSON)) (v : JSON) (h : q.lookup "body" = some v)
      (hnull : v ≠ .null) (hstr : ∀ s, v ≠ .str s) : ItemDefect (.obj q)
  | closedDateNotNumber (q : List (String × JSON)) (v : JSON)
      (h : q.lookup "closed_date" = some v) (hnull : v ≠ .null) (hnum : ∀ f, v ≠ .num f) :
      ItemDefect (.obj q)
  | answersNotSequence (q : List (String × JSON)) (v : JSON)
      (h : q.lookup "answers" = some v) (hnull : v ≠ .null) (harr : ∀ xs, v ≠ .arr xs) :
      ItemDefect (.obj q)
  | answerNotObject (q : List (String × JSON)) (answers : List JSON) (ans : JSON)
      (h : q.lookup "answers" = some (.arr answers)) (hmem : ans ∈ answers)
      (hobj : ∀ am, ans ≠ .obj am) : ItemDefect (.obj q)
  | answerBodyMissing (q : List (String × JSON)) (answers : List JSON)
      (am : List (String × JSON)) (h : q.lookup "answers" = some (.arr answers))
      (hmem : JSON.obj am ∈ answers)
      (hbody : am.lookup "body" = none ∨ am.lookup "body" = some .null) : ItemDefect (.obj q)
  | answerBodyNotString (q : List (String × JSON)) (answers : List JSON)
      (am : List (String × JSON)) (v : JSON) (h : q.lookup "answers" = some (.arr answers))
      (hmem : JSON.obj am ∈ answers) (hbody : am.lookup "body" = some v)
      (hnull : v ≠ .null) (hstr : ∀ s, v ≠ .str s) : ItemDefect (.obj q)

/-- A decoding, type-assertion or required-field failure of a response body:
the body does not decode to a JSON object, the document has no `items` key,
`items` is not a sequence, or one of the items has a defect. -/
inductive ResponseDefect : Option JSON → Prop where
  | notObject (parsed : Option JSON) (h : ∀ doc, parsed ≠ some (.obj doc)) :
      ResponseDefect parsed
  | noItems (doc : List (String × JSON)) (h : doc.lookup "items" = none) :
      ResponseDefect (some (.obj doc))
  | itemsNotSequence (doc : List (String × JSON)) (v : JSON)
      (h : doc.lookup "items" = some v) (harr : ∀ items, v ≠ .arr items) :
      ResponseDefect (some (.obj doc))
  | item (doc : List (String × JSON)) (items : List JSON) (item : JSON)
      (h : doc.lookup "items" = some (.arr items)) (hmem : item ∈ items)
      (hdefect : ItemDefect item) : ResponseDefect (some (.obj doc))

/-- The paging sequence `pages` is what the upstream serves to a run from
its request number `n` on, when that request asks for page `page`: each page
answers the request for the page named by the previous response's NextPage,
every page but the last has a non-zero NextPage, and the last has NextPage
zero. -/
def ServedFrom (client : IssuesClient) (repoOwner repo : String) :
    Nat → Int → List (List (Option Issue) × Response) → Prop
  | _, _, [] => False
  | n, page, [last] => client n repoOwner repo page = .ok last ∧ last.2.NextPage = 0
  | n, page, pg :: next :: rest =>
    client n repoOwner repo page = .ok pg ∧ pg.2.NextPage ≠ 0 ∧
      ServedFrom client repoOwner repo (n + 1) pg.2.NextPage (next :: rest)

/-- An upstream with two pages of issues for `golang/go`: the first request
(page 0) yields one issue and names page 2 as the next, page 2 yields one
issue and no further page. -/
def twoPageClient : IssuesClient := fun _ _ _ page =>
  if page = 0 then
    .ok ([some { Title := some "first", Number := some 1,
                 CreatedAt := some (Time.Unix 1700000000 0), ClosedAt := none }],
         { NextPage := 2 })
  else if page = 2 then
    .ok ([some { Title := some "second", Number := some 2,
                 CreatedAt := some (Time.Unix 1700000100 0),
                 ClosedAt := some (Time.Unix 1700000200 0) }],
         { NextPage := 0 })
  else .error "404 Not Found"

/-- One call of a fetcher together with what the remote service answers. -/
inductive Call where
  | github (client : IssuesClient) (repoOwner repo : String) (fuel : Nat)
  | stackoverflow (technology : String) (res : HTTPResult)

/-- The call is a call of `getGitHubIssues`. -/
def Call.isGithub : Call → Bool
  | .github _ _ _ _ => true
  | .stackoverflow _ _ => false

/-- The counters after one call that returns; `none` when the call panics
or does not end. -/
def runCall (loc : Location) (c : Call) (m : Metrics) : Option Metrics :=
  match c with
  | .github client repoOwner repo fuel =>
    match getGitHubIssues client repoOwner repo fuel m with
    | some (.ok (_, m')) => some m'
    | _ => none
  | .stackoverflow technology res =>
    match getSOQuestions loc technology res m with
    | .ok (_, m') => some m'
    | .error _ => none

/-- The counters after a sequence of calls that all return. -/
def runCalls (loc : Location) : List Call → Metrics → Option Metrics
  | [], m => some m
  | c :: cs, m =>
    match runCall loc c m with
    | some m' => runCalls loc cs m'
    | none => none

/-! ## Auxiliary facts on the loops -/

theorem questionsLoop_ok_iff (loc : Location) (technology : String) (items : List JSON) :
    ∀ (questions out : List SOQuestion),
      questionsLoop loc technology items questions = .ok out ↔
        ∃ qs, List.Forall₂ (fun item q => questionStep loc technology item = .ok q) items qs ∧
          out = questions ++ qs := by
  induction items with
  | nil =>
    intro questions out
    simp [questionsLoop, eq_comm]
  | cons item rest ih =>
    intro questions out
    cases h : questionStep loc technology item with
    | error p => simp [questionsLoop, h, List.forall₂_cons_left_iff]
    | ok question =>
      simp only [questionsLoop, h, ih, List.forall₂_cons_left_iff]
      constructor
      · rintro ⟨qs, hqs, rfl⟩
        exact ⟨question :: qs, ⟨question, qs, rfl, hqs, rfl⟩, by simp⟩
      · rintro ⟨_, ⟨q, qs, hq, hqs, rfl⟩, rfl⟩
        cases hq
        exact ⟨qs, hqs, by simp⟩

theorem questionsLoop_total (loc : Location) (technology : String) (items : List JSON)
    (questions : List SOQuestion) :
    (∃ out, questionsLoop loc technology items questions = .ok out) ∨
      ∃ p, questionsLoop loc technology items questions = .error p := by
  cases questionsLoop loc technology items questions with
  | error p => exact Or.inr ⟨p, rfl⟩
  | ok out => exact Or.inl ⟨out, rfl⟩

theorem forall₂_step_of_mem {α β : Type} {R : α → β → Prop} {xs : List α} {ys : List β}
    (h : List.Forall₂ R xs ys) {x : α} (hx : x ∈ xs) : ∃ y, y ∈ ys ∧ R x y := by
  induction h with
  | nil => cases hx
  | cons hr _ ih =>
    rcases List.mem_cons.mp hx with rfl | hx
    · exact ⟨_, List.mem_cons_self _ _, hr⟩
    · obtain ⟨y, hy, hxy⟩ := ih hx
      exact ⟨y, List.mem_cons_of_mem _ hy, hxy⟩

theorem forall₂_step_of_mem_right {α β : Type} {R : α → β → Prop} {xs : List α} {ys : List β}
    (h : List.Forall₂ R xs ys) {y : β} (hy : y ∈ ys) : ∃ x, x ∈ xs ∧ R x y := by
  induction h with
  | nil => cases hy
  | cons hr _ ih =>
    rcases List.mem_cons.mp hy with rfl | hy
    · exact ⟨_, List.mem_cons_self _ _, hr⟩
    · obtain ⟨x, hx, hxy⟩ := ih hy
      exact ⟨x, List.mem_cons_of_mem _ hx, hxy⟩

theorem questionsLoop_error_of_mem (loc : Location) (technology : String) (items : List JSON)
    (questions : List SOQuestion) (item : JSON) (p : Panic) (hmem : item ∈ items)
    (hstep : questionStep loc technology item = .error p) :
    ∃ p', questionsLoop loc technology items questions = .error p' := by
  rcases questionsLoop_total loc technology items questions with ⟨out, hout⟩ | h
  · obtain ⟨qs, hqs, _⟩ := (questionsLoop_ok_iff loc technology items questions out).mp hout
    obtain ⟨q, _, hq⟩ := forall₂_step_of_mem hqs hmem
    rw [hstep] at hq
    cases hq
  · exact h

theorem answersLoop_ok_iff (answers : List JSON) :
    ∀ (answerList out : List SOAnswer),
      answersLoop answers answerList = .ok out ↔
        ∃ as, List.Forall₂ (fun ans a => answerStep ans = (a, none)) answers as ∧
          out = answerList ++ as := by
  induction answers with
  | nil =>
    intro answerList out
    simp [answersLoop, eq_comm]
  | cons ans rest ih =>
    intro answerList out
    rcases h : answerStep ans with ⟨answer, _ | p⟩
    · simp only [answersLoop, h, ih, List.forall₂_cons_left_iff]
      constructor
      · rintro ⟨as, has, rfl⟩
        exact ⟨answer :: as, ⟨answer, as, rfl, has, rfl⟩, by simp⟩
      · rintro ⟨_, ⟨a, as, ha, has, rfl⟩, rfl⟩
        cases ha
        exact ⟨as, has, by simp⟩
    · simp [answersLoop, h, List.forall₂_cons_left_iff]

theorem questionsLoop_append_error (loc : Location) (technology : String) (pre : List JSON) :
    ∀ (questions : List SOQuestion) (item : JSON) (post : List JSON) (p : Panic),
      (∀ x ∈ pre, ∃ r, questionStep loc technology x = .ok r) →
      questionStep loc technology item = .error p →
      questionsLoop loc technology (pre ++ item :: post) questions = .error p := by
  induction pre with
  | nil =>
    intro questions item post p _ hstep
    simp [questionsLoop, hstep]
  | cons x pre ih =>
    intro questions item post p hpre hstep
    obtain ⟨r, hr⟩ := hpre x (List.mem_cons_self _ _)
    simp only [List.cons_append, questionsLoop, hr]
    exact ih _ item post p (fun y hy => hpre y (List.mem_cons_of_mem _ hy)) hstep

/-! ## Auxiliary facts on the steps -/

theorem present_eq_none_iff (m : List (String × JSON)) (key : String) :
    present m key = none ↔ m.lookup key = none ∨ m.lookup key = some .null := by
  unfold present
  cases h : m.lookup key with
  | none => simp
  | some v => cases v <;> simp

theorem present_eq_some_iff (m : List (String × JSON)) (key : String) (v : JSON) :
    present m key = some v ↔ m.lookup key = some v ∧ v ≠ .null := by
  unfold present
  cases h : m.lookup key with
  | none => simp
  | some w =>
    cases w <;> simp <;> intro h <;> subst h <;> simp

theorem answerStep_ok (ans : JSON) (a : SOAnswer) (h : answerStep ans = (a, none)) :
    ∃ am, ans = .obj am ∧ am.lookup "body" = some (.str a.Body) := by
  cases ans with
  | obj am =>
    refine ⟨am, rfl, ?_⟩
    unfold answerStep at h
    cases hp : present am "body" with
    | none => simp [hp] at h
    | some v =>
      cases v <;> simp [hp] at h
      rw [← h]
      exact ((present_eq_some_iff _ _ _).mp hp).1
  | _ => simp [answerStep] at h

theorem answerStep_of_body (am : List (String × JSON)) (s : String)
    (h : am.lookup "body" = some (.str s)) :
    answerStep (.obj am) = ({ Body := s }, none) := by
  have hp : present am "body" = some (.str s) :=
    (present_eq_some_iff _ _ _).mpr ⟨h, by simp⟩
  simp [answerStep, hp]

theorem questionStep_ok (loc : Location) (technology : String) (item : JSON) (r : SOQuestion)
    (h : questionStep loc technology item = .ok r) :
    ∃ q, item = .obj q ∧ titleStep q = .ok r.Title ∧ bodyStep q = .ok r.Body ∧
      closedStep loc q = .ok r.Closed_At ∧ answersStep q = .ok r.Answers ∧
      r.Created_At = Time.zero ∧ r.Technology = technology := by
  cases item with
  | obj q =>
    refine ⟨q, rfl, ?_⟩
    unfold questionStep at h
    cases ht : titleStep q with
    | error p => simp [ht] at h
    | ok title =>
      cases hb : bodyStep q with
      | error p => simp [ht, hb] at h
      | ok body =>
        cases hc : closedStep loc q with
        | error p => simp [ht, hb, hc] at h
        | ok closed =>
          cases ha : answersStep q with
          | error p => simp [ht, hb, hc, ha] at h
          | ok answers =>
            simp only [ht, hb, hc, ha, Except.ok.injEq] at h
            subst h
            simp
  | _ => simp [questionStep] at h

theorem questionStep_of_steps (loc : Location) (technology : String) (q : List (String × JSON))
    (title body : String) (closed : Time) (answers : List SOAnswer)
    (ht : titleStep q = .ok title) (hb : bodyStep q = .ok body)
    (hc : closedStep loc q = .ok closed) (ha : answersStep q = .ok answers) :
    questionStep loc technology (.obj q) =
      .ok { Title := title, Body := body, Answers := answers, Created_At := Time.zero,
            Closed_At := closed, Technology := technology } := by
  simp [questionStep, ht, hb, hc, ha]

theorem getSOQuestions_of_items (loc : Location) (technology : String) (doc : List (String × JSON))
    (items : List JSON) (m : Metrics) (hitems : doc.lookup "items" = some (.arr items)) :
    getSOQuestions loc technology (.body (some (.obj doc))) m =
      match questionsLoop loc technology items [] with
      | .error p => .error p
      | .ok questions =>
        .ok (questions, { m with stackoverflowAPICalls := m.stackoverflowAPICalls + 1 }) := by
  simp [getSOQuestions, decodeResult, resultItems, hitems]

theorem getSOQuestions_returned (loc : Location) (technology : String) (res : HTTPResult) (m m' : Metrics)
    (out : List SOQuestion) (h : getSOQuestions loc technology res m = .ok (out, m')) :
    ∃ doc items, res = .body (some (.obj doc)) ∧ doc.lookup "items" = some (.arr items) ∧
      List.Forall₂ (fun item q => questionStep loc technology item = .ok q) items out ∧
      m' = { m with stackoverflowAPICalls := m.stackoverflowAPICalls + 1 } := by
  cases res with
  | transportError err => simp [getSOQuestions] at h
  | body parsed =>
    cases parsed with
    | none => simp [getSOQuestions, decodeResult, resultItems] at h
    | some v =>
      cases v with
      | obj doc =>
        cases hl : doc.lookup "items" with
        | none => simp [getSOQuestions, decodeResult, resultItems, hl] at h
        | some w =>
          cases w with
          | arr items =>
            rw [getSOQuestions_of_items loc technology doc items m hl] at h
            cases hq : questionsLoop loc technology items [] with
            | error p => simp [hq] at h
            | ok questions =>
              simp only [hq, Except.ok.injEq, Prod.mk.injEq] at h
              obtain ⟨rfl, rfl⟩ := h
              obtain ⟨qs, hqs, rfl⟩ := (questionsLoop_ok_iff loc technology items [] _).mp hq
              exact ⟨doc, items, rfl, hl, by simpa using hqs, rfl⟩
          | _ => simp [getSOQuestions, decodeResult, resultItems, hl] at h
      | _ => simp [getSOQuestions, decodeResult, resultItems] at h

theorem titleStep_ok_iff (q : List (String × JSON)) (t : String) :
    titleStep q = .ok t ↔ q.lookup "title" = some (.str t) := by
  simp only [titleStep, present]
  cases h : q.lookup "title" with
  | none => simp
  | some v => cases v <;> simp

theorem titleStep_missing (q : List (String × JSON))
    (h : q.lookup "title" = none ∨ q.lookup "title" = some .null) :
    titleStep q = .error (.message "Title is missing or nil") := by
  simp [titleStep, (present_eq_none_iff q "title").mpr h]

theorem bodyStep_missing (q : List (String × JSON))
    (h : q.lookup "body" = none ∨ q.lookup "body" = some .null) :
    bodyStep q = .ok "No Body" := by
  simp [bodyStep, (present_eq_none_iff q "body").mpr h]

theorem bodyStep_of_str (q : List (String × JSON)) (b : String)
    (h : q.lookup "body" = some (.str b)) : bodyStep q = .ok b := by
  simp [bodyStep, present, h]

theorem toUnix_Unix (sec : Int) (nsec : Nat) : (Time.Unix sec nsec).toUnix = sec := by
  simp [Time.Unix, Time.toUnix]

theorem marshal_ok_iff (loc : Location) (f : Int) (text : RFC3339) :
    (Time.Unix (int64 f) 0).MarshalJSON loc = .ok text ↔
      yearZeroUnix ≤ f + loc.offset f ∧ f + loc.offset f < yearTenThousandUnix ∧
        text = { wallSec := f + loc.offset f, nsec := 0,
                 offsetMinutes := (loc.offset f).tdiv 60 } := by
  by_cases hr : -(2 : Int) ^ 63 ≤ f ∧ f < (2 : Int) ^ 63
  · have hi : int64 f = f := by
      unfold int64
      rw [if_pos hr]
    rw [hi]
    unfold Time.MarshalJSON
    rw [toUnix_Unix]
    by_cases hy : yearZeroUnix ≤ f + loc.offset f ∧ f + loc.offset f < yearTenThousandUnix
    · rw [if_pos hy]
      simp only [Except.ok.injEq, Time.Unix]
      constructor
      · intro h
        exact ⟨hy.1, hy.2, h.symm⟩
      · intro h
        exact h.2.2.symm
    · rw [if_neg hy]
      constructor
      · intro h
        cases h
      · intro h
        exact absurd ⟨h.1, h.2.1⟩ hy
  · have hi : int64 f = -(2 : Int) ^ 63 := by
      unfold int64
      rw [if_neg hr]
    rw [hi]
    unfold Time.MarshalJSON
    rw [toUnix_Unix]
    have hb := loc.bounded (-(2 : Int) ^ 63)
    have hf := loc.bounded f
    have hy : ¬ (yearZeroUnix ≤ -(2 : Int) ^ 63 + loc.offset (-(2 : Int) ^ 63) ∧
        -(2 : Int) ^ 63 + loc.offset (-(2 : Int) ^ 63) < yearTenThousandUnix) := by
      generalize loc.offset (-(2 : Int) ^ 63) = o at hb
      simp only [yearZeroUnix, yearTenThousandUnix]
      norm_num
      intro h
      omega
    rw [if_neg hy]
    constructor
    · intro h
      cases h
    · intro h
      exfalso
      apply hr
      have h1 := h.1
      have h2 := h.2.1
      simp only [yearZeroUnix, yearTenThousandUnix] at h1 h2
      norm_num
      constructor <;> omega

theorem closedStep_ok_iff (loc : Location) (q : List (String × JSON)) (c : Time) :
    closedStep loc q = .ok c ↔
      ((q.lookup "closed_date" = none ∨ q.lookup "closed_date" = some .null) ∧ c = Time.zero) ∨
      ∃ f, q.lookup "closed_date" = some (.num f) ∧ yearZeroUnix ≤ f + loc.offset f ∧
        f + loc.offset f < yearTenThousandUnix ∧
        c = Time.Unix (f + (loc.offset f).tmod 60) 0 := by
  simp only [closedStep, present]
  cases h : q.lookup "closed_date" with
  | none => simp [eq_comm]
  | some v =>
    cases v with
    | num f =>
      simp only [reduceCtorEq, or_false, false_and, false_or, Option.some.injEq, JSON.num.injEq,
        exists_eq_left']
      have hmod : f + loc.offset f - 60 * (loc.offset f).tdiv 60 =
          f + (loc.offset f).tmod 60 := by
        rw [Int.tmod_def]
        omega
      cases hm : (Time.Unix (int64 f) 0).MarshalJSON loc with
      | error err =>
        simp only [reduceCtorEq, false_iff, not_and]
        intro h1 h2
        have := (marshal_ok_iff loc f _).mpr ⟨h1, h2, rfl⟩
        rw [hm] at this
        cases this
      | ok text =>
        obtain ⟨h1, h2, rfl⟩ := (marshal_ok_iff loc f text).mp hm
        simp [Time.UnmarshalJSON, h1, h2, hmod, eq_comm]
    | null => simp [eq_comm]
    | _ => simp

theorem answersStep_ok_iff (q : List (String × JSON)) (as : List SOAnswer) :
    answersStep q = .ok as ↔
      ((q.lookup "answers" = none ∨ q.lookup "answers" = some .null) ∧ as = []) ∨
      ∃ answers, q.lookup "answers" = some (.arr answers) ∧
        List.Forall₂ (fun ans a => ∃ am, ans = JSON.obj am ∧
          am.lookup "body" = some (.str a.Body)) answers as := by
  simp only [answersStep, present]
  cases h : q.lookup "answers" with
  | none => simp [eq_comm]
  | some v =>
    cases v with
    | arr answers =>
      simp only [reduceCtorEq, or_false, false_and, false_or, Option.some.injEq, JSON.arr.injEq,
        exists_eq_left', answersLoop_ok_iff, List.nil_append, exists_eq_right']
      constructor
      · intro hf
        exact hf.imp (fun ans a ha => answerStep_ok ans a ha)
      · intro hf
        refine hf.imp (fun ans a ha => ?_)
        obtain ⟨am, rfl, hb⟩ := ha
        exact answerStep_of_body am a.Body hb
    | null => simp [eq_comm]
    | _ => simp

/-! ## Required title (C2) -/

/-- C2: a question item whose `title` key is absent or null makes the item
step panic with "Title is missing or nil"; whatever the other items of the
response are, `getSOQuestions` then ends in a panic and returns no list, and
when the items before it are extracted without failure the panic of the call
is exactly "Title is missing or nil". -/
theorem getSOQuestions_title_missing (loc : Location) (technology : String) (doc : List (String × JSON))
    (items : List JSON) (q : List (String × JSON)) (m : Metrics)
    (hitems : doc.lookup "items" = some (.arr items)) (hmem : JSON.obj q ∈ items)
    (htitle : q.lookup "title" = none ∨ q.lookup "title" = some .null) :
    questionStep loc technology (.obj q) = .error (.message "Title is missing or nil") ∧
    (∃ p, getSOQuestions loc technology (.body (some (.obj doc))) m = .error p) ∧
    (∀ pre post, items = pre ++ JSON.obj q :: post →
      (∀ x ∈ pre, ∃ r, questionStep loc technology x = .ok r) →
      getSOQuestions loc technology (.body (some (.obj doc))) m =
        .error (.message "Title is missing or nil")) := by
  have hstep : questionStep loc technology (.obj q) =
      .error (.message "Title is missing or nil") := by
    simp [questionStep, titleStep_missing q htitle]
  refine ⟨hstep, ?_, ?_⟩
  · obtain ⟨p, hp⟩ := questionsLoop_error_of_mem loc technology items [] _ _ hmem hstep
    exact ⟨p, by rw [getSOQuestions_of_items loc technology doc items m hitems, hp]⟩
  · intro pre post hsplit hpre
    rw [getSOQuestions_of_items loc technology doc items m hitems, hsplit,
      questionsLoop_append_error loc technology pre [] _ post _ hpre hstep]

/-- Witness for C2: a response of two items, the second without a title. -/
theorem getSOQuestions_title_missing_witness :
    getSOQuestions UTC "Go"
      (.body (some (.obj [("items", .arr [.obj [("title", .str "foo")],
        .obj [("body", .str "text"), ("title", .null)]])]))) ⟨0, 0⟩ =
      .error (.message "Title is missing or nil") :=
  (getSOQuestions_title_missing UTC "Go"
    [("items", .arr [.obj [("title", .str "foo")],
      .obj [("body", .str "text"), ("title", .null)]])]
    [.obj [("title", .str "foo")], .obj [("body", .str "text"), ("title", .null)]]
    [("body", .str "text"), ("title", .null)] ⟨0, 0⟩ rfl
    (List.mem_cons_of_mem _ (List.mem_cons_self _ _)) (Or.inr rfl)).2.2
    [.obj [("title", .str "foo")]] [] rfl
    (fun x hx => by
      rw [List.mem_singleton.mp hx]
      exact ⟨_, rfl⟩)

/-! ## Missing body (C3) -/

theorem closedStep_succeeds_iff (loc : Location) (q : List (String × JSON)) :
    (∃ c, closedStep loc q = .ok c) ↔ ClosedDateAccepted loc q := by
  simp only [closedStep_ok_iff, ClosedDateAccepted]
  constructor
  · rintro ⟨c, (⟨h | h, _⟩ | ⟨f, hf, h1, h2, _⟩)⟩
    · exact Or.inl h
    · exact Or.inr (Or.inl h)
    · exact Or.inr (Or.inr ⟨f, hf, h1, h2⟩)
  · rintro (h | h | ⟨f, hf, h1, h2⟩)
    · exact ⟨Time.zero, Or.inl ⟨Or.inl h, rfl⟩⟩
    · exact ⟨Time.zero, Or.inl ⟨Or.inr h, rfl⟩⟩
    · exact ⟨_, Or.inr ⟨f, hf, h1, h2, rfl⟩⟩

theorem forall₂_of_forall_exists {α β : Type} (R : α → β → Prop) :
    ∀ (xs : List α), (∀ x ∈ xs, ∃ y, R x y) → ∃ ys, List.Forall₂ R xs ys
  | [], _ => ⟨[], List.Forall₂.nil⟩
  | x :: xs, h => by
    obtain ⟨y, hy⟩ := h x (List.mem_cons_self _ _)
    obtain ⟨ys, hys⟩ := forall₂_of_forall_exists R xs
      (fun z hz => h z (List.mem_cons_of_mem _ hz))
    exact ⟨y :: ys, List.Forall₂.cons hy hys⟩

theorem answersStep_succeeds_iff (q : List (String × JSON)) :
    (∃ as, answersStep q = .ok as) ↔ AnswersAccepted q := by
  simp only [answersStep_ok_iff, AnswersAccepted]
  constructor
  · rintro ⟨as, (⟨h | h, _⟩ | ⟨answers, ha, hf⟩)⟩
    · exact Or.inl h
    · exact Or.inr (Or.inl h)
    · refine Or.inr (Or.inr ⟨answers, ha, fun ans hans => ?_⟩)
      obtain ⟨a, _, am, rfl, hb⟩ := forall₂_step_of_mem hf hans
      exact ⟨am, a.Body, rfl, hb⟩
  · rintro (h | h | ⟨answers, ha, hall⟩)
    · exact ⟨[], Or.inl ⟨Or.inl h, rfl⟩⟩
    · exact ⟨[], Or.inl ⟨Or.inr h, rfl⟩⟩
    · obtain ⟨as, has⟩ := forall₂_of_forall_exists
        (fun ans (a : SOAnswer) => ∃ am, ans = JSON.obj am ∧
          am.lookup "body" = some (.str a.Body)) answers
        (fun ans hans => by
          obtain ⟨am, s, rfl, hb⟩ := hall ans hans
          exact ⟨⟨s⟩, am, rfl, hb⟩)
      exact ⟨as, Or.inr ⟨answers, ha, has⟩⟩

/-- C3, as stated, fails: the item `{"body": null}` is missing `body`, yet
its extraction panics (the title is required), and so does the call. -/
theorem questionStep_body_missing_counterexample :
    List.lookup "body" [("body", JSON.null)] = some .null ∧
    questionStep UTC "Go" (.obj [("body", .null)]) =
      .error (.message "Title is missing or nil") ∧
    getSOQuestions UTC "Go" (.body (some (.obj [("items", .arr [.obj [("body", .null)]])])))
      ⟨0, 0⟩ = .error (.message "Title is missing or nil") :=
  ⟨rfl, rfl, rfl⟩

/-- C3, amended: for a question item that is missing `body` (key absent or
value null) the body block does not fail and yields "No Body"; every record
extracted from the item has Body "No Body"; and a record is extracted, with
no panic, exactly when the title is a string, `closed_date` is absent, null
or a number of seconds that the local zone shows in the years 0 to 9999, and
`answers` is absent, null or a sequence of objects with string bodies. -/
theorem questionStep_body_missing (loc : Location) (technology : String) (q : List (String × JSON))
    (hbody : q.lookup "body" = none ∨ q.lookup "body" = some .null) :
    bodyStep q = .ok "No Body" ∧
    (∀ r, questionStep loc technology (.obj q) = .ok r → r.Body = "No Body") ∧
    ((∃ r, questionStep loc technology (.obj q) = .ok r) ↔
      (∃ t, q.lookup "title" = some (.str t)) ∧ ClosedDateAccepted loc q ∧ AnswersAccepted q) := by
  have hb := bodyStep_missing q hbody
  refine ⟨hb, ?_, ?_⟩
  · intro r hr
    obtain ⟨q', hq', _, hb', _⟩ := questionStep_ok loc technology _ r hr
    cases hq'
    rw [hb] at hb'
    injection hb' with hb'
    exact hb'.symm
  · rw [← closedStep_succeeds_iff, ← answersStep_succeeds_iff]
    constructor
    · rintro ⟨r, hr⟩
      obtain ⟨q', hq', ht, _, hc, ha, _⟩ := questionStep_ok loc technology _ r hr
      cases hq'
      exact ⟨⟨r.Title, (titleStep_ok_iff q _).mp ht⟩, ⟨_, hc⟩, ⟨_, ha⟩⟩
    · rintro ⟨⟨t, ht⟩, ⟨c, hc⟩, ⟨as, ha⟩⟩
      exact ⟨_, questionStep_of_steps loc technology q t "No Body" c as
        ((titleStep_ok_iff q t).mpr ht) hb hc ha⟩

/-- Witness for C3: the item `{"title": "foo"}` has no body; its body block
yields "No Body". -/
theorem questionStep_body_missing_witness :
    List.lookup "body" [("title", JSON.str "foo")] = none ∧
    bodyStep [("title", .str "foo")] = .ok "No Body" :=
  ⟨rfl, (questionStep_body_missing UTC "Go" [("title", .str "foo")] (Or.inl rfl)).1⟩

/-! ## Well-formed responses (C4) -/

theorem questionStep_of_shape (loc : Location) (tag : String) (item : JSON) (s : ItemShape)
    (h : HasShape item s) : questionStep loc tag item = .ok (expectedRecord tag s) := by
  obtain ⟨q, rfl, ht, hb, hc, ha⟩ := h
  have hbody : bodyStep q = .ok (s.body.getD "No Body") := by
    cases hs : s.body with
    | none =>
      rw [hs] at hb
      exact bodyStep_missing q (Or.inl hb)
    | some b =>
      rw [hs] at hb
      exact bodyStep_of_str q b hb
  have hclosed : closedStep loc q = .ok Time.zero :=
    (closedStep_ok_iff loc q _).mpr (Or.inl ⟨Or.inl hc, rfl⟩)
  have hanswers : answersStep q = .ok ((s.answers.getD []).map SOAnswer.mk) := by
    cases hs : s.answers with
    | none =>
      rw [hs] at ha
      exact (answersStep_ok_iff q _).mpr (Or.inl ⟨Or.inl ha, rfl⟩)
    | some bodies =>
      rw [hs] at ha
      obtain ⟨answers, hl, hf⟩ := ha
      refine (answersStep_ok_iff q _).mpr (Or.inr ⟨answers, hl, ?_⟩)
      simpa [List.forall₂_map_right_iff] using hf
  exact questionStep_of_steps loc tag q s.title _ _ _ ((titleStep_ok_iff q _).mpr ht)
    hbody hclosed hanswers

/-- C4: for a response whose `items` are all well-formed (string title,
string-or-absent body, absent closed_date, answers absent or all with string
bodies), `getSOQuestions(tag)` returns exactly one record per item, in the
items' order; record i has the title of item i, its body or "No Body",
Technology = tag and the bodies of its answers in order. The call also
increments the question counter once. -/
theorem getSOQuestions_well_formed (loc : Location) (tag : String) (doc : List (String × JSON))
    (items : List JSON) (shapes : List ItemShape) (m : Metrics)
    (hitems : doc.lookup "items" = some (.arr items))
    (hshape : List.Forall₂ HasShape items shapes) :
    getSOQuestions loc tag (.body (some (.obj doc))) m =
      .ok (shapes.map (expectedRecord tag),
        { m with stackoverflowAPICalls := m.stackoverflowAPICalls + 1 }) := by
  have hloop : questionsLoop loc tag items [] = .ok (shapes.map (expectedRecord tag)) := by
    refine (questionsLoop_ok_iff loc tag items [] _).mpr ⟨shapes.map (expectedRecord tag), ?_, by simp⟩
    rw [List.forall₂_map_right_iff]
    exact hshape.imp (fun item s hs => questionStep_of_shape loc tag item s hs)
  rw [getSOQuestions_of_items loc tag doc items m hitems, hloop]

/-- Witness for C4: tag "Go", one item with title "foo", no body and one
answer with body "bar" gives the single record (title "foo", body "No Body",
technology "Go", answers ["bar"]). -/
theorem getSOQuestions_well_formed_witness :
    getSOQuestions UTC "Go"
      (.body (some (.obj [("items", .arr [.obj [("title", .str "foo"),
        ("answers", .arr [.obj [("body", .str "bar")]])]])]))) ⟨0, 0⟩ =
      .ok ([{ Title := "foo", Body := "No Body", Answers := [{ Body := "bar" }],
              Created_At := Time.zero, Closed_At := Time.zero, Technology := "Go" }],
        ⟨0, 1⟩) :=
  getSOQuestions_well_formed UTC "Go"
    [("items", .arr [.obj [("title", .str "foo"),
      ("answers", .arr [.obj [("body", .str "bar")]])]])]
    [.obj [("title", .str "foo"), ("answers", .arr [.obj [("body", .str "bar")]])]]
    [{ title := "foo", body := none, answers := some ["bar"] }] ⟨0, 0⟩ rfl
    (List.Forall₂.cons
      ⟨_, rfl, rfl, rfl, rfl, _, rfl,
        List.Forall₂.cons ⟨_, rfl, rfl⟩ List.Forall₂.nil⟩
      List.Forall₂.nil)

/-! ## Closing date (C5) -/

theorem bodyStep_succeeds (q : List (String × JSON))
    (h : q.lookup "body" = none ∨ q.lookup "body" = some .null ∨
      ∃ b, q.lookup "body" = some (.str b)) : ∃ b, bodyStep q = .ok b := by
  rcases h with h | h | ⟨b, h⟩
  · exact ⟨_, bodyStep_missing q (Or.inl h)⟩
  · exact ⟨_, bodyStep_missing q (Or.inr h)⟩
  · exact ⟨b, bodyStep_of_str q b h⟩

/-- C5, as stated, fails: with Asia/Tokyo as local zone, whose offset in
1874 is +09:18:59, the item with `closed_date` -3000000000 is extracted with
Closed_At 59 seconds later, at Unix second -2999999941. -/
theorem questionStep_closed_at_counterexample :
    questionStep tokyo "Go"
      (.obj [("title", .str "foo"), ("closed_date", .num (-3000000000))]) =
      .ok { Title := "foo", Body := "No Body", Answers := [], Created_At := Time.zero,
            Closed_At := Time.Unix (-2999999941) 0, Technology := "Go" } ∧
    (Time.Unix (-2999999941) 0).toUnix = -2999999941 ∧
    Time.Unix (-2999999941) 0 ≠ Time.Unix (-3000000000) 0 :=
  ⟨rfl, rfl, by decide⟩

/-- C5, amended: for every question item and every record extracted from
it: when `closed_date` holds the integer number `s` of seconds and the UTC
offset of the local zone at `s` is a whole number of minutes, the record's
Closed_At is the instant `s` seconds after the Unix epoch; when
`closed_date` is absent or null, Closed_At is the zero value of the
timestamp. A record is extracted whenever the title is a string, `body` is
absent, null or a string, `answers` is absent, null or a sequence of objects
with string bodies, and `closed_date` is absent, null or a number of seconds
that the local zone shows in the years 0 to 9999. -/
theorem questionStep_closed_at (loc : Location) (technology : String)
    (q : List (String × JSON)) :
    (∀ r, questionStep loc technology (.obj q) = .ok r →
      (∀ s, q.lookup "closed_date" = some (.num s) → (loc.offset s).tmod 60 = 0 →
        r.Closed_At = Time.Unix s 0 ∧ r.Closed_At.toUnix = s) ∧
      (q.lookup "closed_date" = none ∨ q.lookup "closed_date" = some .null →
        r.Closed_At = Time.zero)) ∧
    ((∃ t, q.lookup "title" = some (.str t)) →
      (q.lookup "body" = none ∨ q.lookup "body" = some .null ∨
        ∃ b, q.lookup "body" = some (.str b)) →
      AnswersAccepted q → ClosedDateAccepted loc q →
      ∃ r, questionStep loc technology (.obj q) = .ok r) := by
  constructor
  · intro r h
    obtain ⟨q', hq', _, _, hc, _⟩ := questionStep_ok loc technology _ r h
    cases hq'
    rcases (closedStep_ok_iff loc q _).mp hc with ⟨hmiss, hz⟩ | ⟨f, hf, _, _, hc'⟩
    · refine ⟨fun s hs _ => ?_, fun _ => hz⟩
      rcases hmiss with hm | hm <;> rw [hm] at hs <;> cases hs
    · refine ⟨fun s hs hmin => ?_, fun hmiss => ?_⟩
      · rw [hf] at hs
        cases hs
        rw [hmin, Int.add_zero] at hc'
        exact ⟨hc', by rw [hc', toUnix_Unix]⟩
      · rcases hmiss with hm | hm <;> rw [hm] at hf <;> cases hf
  · rintro ⟨t, ht⟩ hbody hanswers hclosed
    obtain ⟨b, hb⟩ := bodyStep_succeeds q hbody
    obtain ⟨as, ha⟩ := (answersStep_succeeds_iff q).mpr hanswers
    obtain ⟨c, hc⟩ := (closedStep_succeeds_iff loc q).mpr hclosed
    exact ⟨_, questionStep_of_steps loc technology q t b c as
      ((titleStep_ok_iff q t).mpr ht) hb hc ha⟩

/-- Witness for C5: with UTC as local zone, an item closed at Unix second
1700000000. -/
theorem questionStep_closed_at_witness :
    questionStep UTC "Go" (.obj [("title", .str "foo"), ("closed_date", .num 1700000000)]) =
      .ok { Title := "foo", Body := "No Body", Answers := [], Created_At := Time.zero,
            Closed_At := Time.Unix 1700000000 0, Technology := "Go" } ∧
    (Time.Unix 1700000000 0).toUnix = 1700000000 :=
  ⟨rfl, (((questionStep_closed_at UTC "Go"
    [("title", .str "foo"), ("closed_date", .num 1700000000)]).1
    { Title := "foo", Body := "No Body", Answers := [], Created_At := Time.zero,
      Closed_At := Time.Unix 1700000000 0, Technology := "Go" } rfl).1 1700000000 rfl rfl).2⟩

/-! ## Fatal failures (C7) -/

theorem bodyStep_ok_cases (q : List (String × JSON)) (b : String) (h : bodyStep q = .ok b) :
    q.lookup "body" = some (.str b) ∨ q.lookup "body" = none ∨ q.lookup "body" = some .null := by
  simp only [bodyStep, present] at h
  cases hl : q.lookup "body" with
  | none => simp
  | some v => cases v <;> simp_all

theorem questionStep_defect (loc : Location) (technology : String) (item : JSON) (hd : ItemDefect item) :
    ∃ p, questionStep loc technology item = .error p := by
  cases hq : questionStep loc technology item with
  | error p => exact ⟨p, rfl⟩
  | ok r =>
    exfalso
    obtain ⟨q, hitem, ht, hb, hc, ha, _⟩ := questionStep_ok loc technology item r hq
    have ht' := (titleStep_ok_iff q _).mp ht
    have hb' := bodyStep_ok_cases q _ hb
    have hc' := (closedStep_ok_iff loc q _).mp hc
    have ha' := (answersStep_ok_iff q _).mp ha
    cases hd with
    | notObject _ h => exact h q hitem
    | titleMissing q' h =>
      cases hitem
      rcases h with h | h <;> rw [h] at ht' <;> cases ht'
    | titleNotString q' v h hnull hstr =>
      cases hitem
      rw [h] at ht'
      exact hstr _ (Option.some.inj ht')
    | bodyNotString q' v h hnull hstr =>
      cases hitem
      rw [h] at hb'
      rcases hb' with h1 | h1 | h1
      · exact hstr _ (Option.some.inj h1)
      · cases h1
      · exact hnull (Option.some.inj h1)
    | closedDateNotNumber q' v h hnull hnum =>
      cases hitem
      rw [h] at hc'
      rcases hc' with ⟨h1 | h1, _⟩ | ⟨f, h1, _⟩
      · cases h1
      · exact hnull (Option.some.inj h1)
      · exact hnum f (Option.some.inj h1)
    | answersNotSequence q' v h hnull harr =>
      cases hitem
      rw [h] at ha'
      rcases ha' with ⟨h1 | h1, _⟩ | ⟨answers, h1, _⟩
      · cases h1
      · exact hnull (Option.some.inj h1)
      · exact harr answers (Option.some.inj h1)
    | answerNotObject q' answers ans h hmem hobj =>
      cases hitem
      rw [h] at ha'
      rcases ha' with ⟨h1 | h1, _⟩ | ⟨answers', h1, hf⟩
      · cases h1
      · cases h1
      · cases h1
        obtain ⟨a, _, am, hans, _⟩ := forall₂_step_of_mem hf hmem
        exact hobj am hans
    | answerBodyMissing q' answers am h hmem hbody =>
      cases hitem
      rw [h] at ha'
      rcases ha' with ⟨h1 | h1, _⟩ | ⟨answers', h1, hf⟩
      · cases h1
      · cases h1
      · cases h1
        obtain ⟨a, _, am', hans, hbody'⟩ := forall₂_step_of_mem hf hmem
        cases hans
        rcases hbody with h2 | h2 <;> rw [h2] at hbody' <;> cases hbody'
    | answerBodyNotString q' answers am v h hmem hbody hnull hstr =>
      cases hitem
      rw [h] at ha'
      rcases ha' with ⟨h1 | h1, _⟩ | ⟨answers', h1, hf⟩
      · cases h1
      · cases h1
      · cases h1
        obtain ⟨a, _, am', hans, hbody'⟩ := forall₂_step_of_mem hf hmem
        cases hans
        rw [hbody] at hbody'
        exact hstr _ (Option.some.inj hbody')

/-- C7: for every response served to `getSOQuestions`, each decoding,
type-assertion or required-field failure is fatal: when the body does not
decode to a JSON object, or the document has no `items` key, or `items` is
not a sequence, or an item is not an object, or a present non-null `title`
or `body` is not a string (likewise a missing title, a `closed_date` that is
not a number, an `answers` value that is not a sequence of objects with
string bodies), the call ends in a panic and returns no records. -/
theorem getSOQuestions_defect_fatal (loc : Location) (technology : String) (parsed : Option JSON) (m : Metrics)
    (h : ResponseDefect parsed) :
    ∃ p, getSOQuestions loc technology (.body parsed) m = .error p := by
  cases hres : getSOQuestions loc technology (.body parsed) m with
  | error p => exact ⟨p, rfl⟩
  | ok res =>
    exfalso
    obtain ⟨out, m'⟩ := res
    obtain ⟨doc, items, hbody, hitems, hf, _⟩ :=
      getSOQuestions_returned loc technology _ m m' out hres
    cases hbody
    cases h with
    | notObject _ h => exact h doc rfl
    | noItems _ h =>
      rw [h] at hitems
      cases hitems
    | itemsNotSequence _ v h harr =>
      rw [h] at hitems
      exact harr items (Option.some.inj hitems)
    | item _ items' item h hmem hdefect =>
      rw [h] at hitems
      cases hitems
      obtain ⟨r, _, hr⟩ := forall₂_step_of_mem hf hmem
      obtain ⟨p, hp⟩ := questionStep_defect loc technology item hdefect
      rw [hp] at hr
      cases hr

/-- Witness for C7: the body `{"items": [{"title": 5}]}`, whose title is a
number. -/
theorem getSOQuestions_defect_fatal_witness :
    ∃ p, getSOQuestions UTC "Go"
      (.body (some (.obj [("items", .arr [.obj [("title", .num 5)]])]))) ⟨0, 0⟩ = .error p :=
  getSOQuestions_defect_fatal UTC "Go" (some (.obj [("items", .arr [.obj [("title", .num 5)]])]))
    ⟨0, 0⟩
    (ResponseDefect.item _ [.obj [("title", .num 5)]] (.obj [("title", .num 5)]) rfl
      (List.mem_cons_self _ _)
      (ItemDefect.titleNotString _ (.num 5) rfl (fun h => by cases h) (fun s h => by cases h)))

/-! ## Answer bodies (C8) -/

/-- C8: for a question item whose `answers` list contains an entry with an
absent or null `body`, the answer block assigns "No answers yet" to the local
answer and panics with "Answer body is missing or nil", so the call ends in a
panic and returns nothing; and for every input, every answer of every
returned record has as Body the string that the corresponding source answer
carries under `body`, so the sentinel "No answers yet" appears in a result
only when a source answer's body is literally that string. -/
theorem getSOQuestions_answer_body (loc : Location) (technology : String) (doc : List (String × JSON))
    (items answers : List JSON) (q am : List (String × JSON)) (m : Metrics)
    (hitems : doc.lookup "items" = some (.arr items)) (hmem : JSON.obj q ∈ items)
    (hanswers : q.lookup "answers" = some (.arr answers)) (hans : JSON.obj am ∈ answers)
    (hbody : am.lookup "body" = none ∨ am.lookup "body" = some .null) :
    answerStep (.obj am) =
      ({ Body := "No answers yet" }, some (.message "Answer body is missing or nil")) ∧
    (∃ p, getSOQuestions loc technology (.body (some (.obj doc))) m = .error p) ∧
    (∀ (tech : String) (res : HTTPResult) (m₀ m₁ : Metrics) (out : List SOQuestion),
      getSOQuestions loc tech res m₀ = .ok (out, m₁) →
      ∀ r ∈ out, ∀ a ∈ r.Answers,
        ∃ doc' items' q' answers' am', res = .body (some (.obj doc')) ∧
          doc'.lookup "items" = some (.arr items') ∧ JSON.obj q' ∈ items' ∧
          q'.lookup "answers" = some (.arr answers') ∧ JSON.obj am' ∈ answers' ∧
          am'.lookup "body" = some (.str a.Body)) := by
  refine ⟨?_, ?_, ?_⟩
  · simp [answerStep, (present_eq_none_iff am "body").mpr hbody]
  · obtain ⟨p, hp⟩ := questionStep_defect loc technology (.obj q)
      (ItemDefect.answerBodyMissing q answers am hanswers hans hbody)
    obtain ⟨p', hp'⟩ := questionsLoop_error_of_mem loc technology items [] _ p hmem hp
    exact ⟨p', by rw [getSOQuestions_of_items loc technology doc items m hitems, hp']⟩
  · intro tech res m₀ m₁ out hres r hr a ha
    obtain ⟨doc', items', hbody', hitems', hf, _⟩ :=
      getSOQuestions_returned loc tech res m₀ m₁ out hres
    obtain ⟨item, hitem, hstep⟩ := forall₂_step_of_mem_right hf hr
    obtain ⟨q', rfl, _, _, _, hanswers', _⟩ := questionStep_ok loc tech item r hstep
    rcases (answersStep_ok_iff q' _).mp hanswers' with ⟨_, hnil⟩ | ⟨answers', hl, hf'⟩
    · rw [hnil] at ha
      cases ha
    · obtain ⟨ans, hans', am', rfl, hb⟩ := forall₂_step_of_mem_right hf' ha
      exact ⟨doc', items', q', answers', am', hbody', hitems', hitem, hl, hans', hb⟩

/-- Witness for C8: one item whose second answer has a null body. -/
theorem getSOQuestions_answer_body_witness :
    getSOQuestions UTC "Go"
      (.body (some (.obj [("items", .arr [.obj [("title", .str "foo"),
        ("answers", .arr [.obj [("body", .str "bar")], .obj [("body", .null)]])]])])))
      ⟨0, 0⟩ = .error (.message "Answer body is missing or nil") ∧
    answerStep (.obj [("body", .null)]) =
      ({ Body := "No answers yet" }, some (.message "Answer body is missing or nil")) :=
  ⟨rfl, (getSOQuestions_answer_body UTC "Go"
    [("items", .arr [.obj [("title", .str "foo"),
      ("answers", .arr [.obj [("body", .str "bar")], .obj [("body", .null)]])]])]
    [.obj [("title", .str "foo"),
      ("answers", .arr [.obj [("body", .str "bar")], .obj [("body", .null)]])]]
    [.obj [("body", .str "bar")], .obj [("body", .null)]]
    [("title", .str "foo"),
      ("answers", .arr [.obj [("body", .str "bar")], .obj [("body", .null)]])]
    [("body", .null)] ⟨0, 0⟩ rfl (List.mem_cons_self _ _) rfl
    (List.mem_cons_of_mem _ (List.mem_cons_self _ _)) (Or.inr rfl)).1⟩

/-! ## Creation date (C10) -/

/-- C10: for every input, every record returned by `getSOQuestions` has
Created_At equal to the zero value of the timestamp, and `storeSOQuestion`
appends for it a row whose `created_at` is the zero timestamp, whatever the
source item holds. -/
theorem getSOQuestions_created_at_zero (loc : Location) (technology : String) (res : HTTPResult)
    (m m' : Metrics) (out : List SOQuestion)
    (h : getSOQuestions loc technology res m = .ok (out, m')) :
    ∀ question ∈ out, question.Created_At = Time.zero ∧
      ∀ so_posts : List SoPost, ∃ row,
        storeSOQuestion question so_posts none = .ok (so_posts ++ [row]) ∧
        row.created_at = Time.zero ∧ row.title = question.Title ∧
        row.technology = question.Technology := by
  intro question hq
  obtain ⟨_, items, _, _, hf, _⟩ := getSOQuestions_returned loc technology res m m' out h
  obtain ⟨item, _, hstep⟩ := forall₂_step_of_mem_right hf hq
  obtain ⟨_, _, _, _, _, _, hcreated, _⟩ := questionStep_ok loc technology item question hstep
  refine ⟨hcreated, fun so_posts => ⟨_, rfl, ?_, rfl, rfl⟩⟩
  exact hcreated

/-- Witness for C10: an item carrying `creation_date` 1700000000 is returned
and stored with the zero timestamp as creation date. -/
theorem getSOQuestions_created_at_zero_witness :
    getSOQuestions UTC "Go"
      (.body (some (.obj [("items", .arr [.obj [("title", .str "foo"),
        ("creation_date", .num 1700000000)]])]))) ⟨0, 0⟩ =
      .ok ([{ Title := "foo", Body := "No Body", Answers := [], Created_At := Time.zero,
              Closed_At := Time.zero, Technology := "Go" }], ⟨0, 1⟩) ∧
    ({ Title := "foo", Body := "No Body", Answers := [], Created_At := Time.zero,
       Closed_At := Time.zero, Technology := "Go" } : SOQuestion).Created_At = Time.zero :=
  ⟨rfl, (getSOQuestions_created_at_zero UTC "Go"
    (.body (some (.obj [("items", .arr [.obj [("title", .str "foo"),
      ("creation_date", .num 1700000000)]])]))) ⟨0, 0⟩ ⟨0, 1⟩
    [{ Title := "foo", Body := "No Body", Answers := [], Created_At := Time.zero,
       Closed_At := Time.zero, Technology := "Go" }] rfl _ (List.mem_cons_self _ _)).1⟩

/-! ## Paging (C1) -/

theorem pagingLoop_served (client : IssuesClient) (repoOwner repo : String) :
    ∀ (pages : List (List (Option Issue) × Response)) (fuel : Nat) (page : Int)
      (allIssues : List (Option Issue)) (requested : List Int),
      ServedFrom client repoOwner repo requested.length page pages → pages.length ≤ fuel →
      pagingLoop client repoOwner repo fuel page allIssues requested =
        some (.ok (allIssues ++ (pages.map Prod.fst).flatten,
          requested ++ page :: pages.dropLast.map (fun pg => pg.2.NextPage)))
  | [], _, _, _, _, h, _ => by cases h
  | [last], fuel, page, allIssues, requested, h, hfuel => by
    obtain ⟨hcall, hnext⟩ := h
    cases fuel with
    | zero => simp at hfuel
    | succ fuel =>
      obtain ⟨issues, resp⟩ := last
      simp only at hnext
      simp [pagingLoop, hcall, hnext]
  | pg :: next :: rest, fuel, page, allIssues, requested, h, hfuel => by
    obtain ⟨hcall, hnext, hrest⟩ := h
    cases fuel with
    | zero => simp at hfuel
    | succ fuel =>
      obtain ⟨issues, resp⟩ := pg
      simp only at hnext hrest
      have hlen : (next :: rest).length ≤ fuel := by
        simp only [List.length_cons] at hfuel ⊢
        omega
      simp only [pagingLoop, hcall, hnext, if_false]
      rw [pagingLoop_served client repoOwner repo (next :: rest) fuel resp.NextPage
        (allIssues ++ issues) (requested ++ [page]) (by simpa using hrest) hlen]
      simp

/-- C1: for every paging sequence `pages` served by the upstream to a run
of `getGitHubIssues` (first request for page 0, each later request for the
page named by the previous response's NextPage, NextPage zero on the last
page and on no earlier one), and any fuel of at least the number of pages:
the loop makes exactly one request per page, for page 0 and then for the
NextPage of every page but the last, stopping after the page whose NextPage
is zero; it accumulates the concatenation of the pages' items in page order;
and `getGitHubIssues` returns the records of that concatenation. A served
sequence has at least one page. -/
theorem getGitHubIssues_paging (client : IssuesClient) (repoOwner repo : String)
    (pages : List (List (Option Issue) × Response)) (fuel : Nat) (m : Metrics)
    (hserved : ServedFrom client repoOwner repo 0 0 pages) (hfuel : pages.length ≤ fuel) :
    pagingLoop client repoOwner repo fuel 0 [] [] =
      some (.ok ((pages.map Prod.fst).flatten,
        0 :: pages.dropLast.map (fun pg => pg.2.NextPage))) ∧
    (0 :: pages.dropLast.map (fun pg => pg.2.NextPage)).length = pages.length ∧
    getGitHubIssues client repoOwner repo fuel m =
      some (.ok (((pages.map Prod.fst).flatten).map (toGithubIssue repo),
        { m with githubAPICalls := m.githubAPICalls + 1 })) := by
  have hloop := pagingLoop_served client repoOwner repo pages fuel 0 [] [] hserved hfuel
  simp only [List.nil_append] at hloop
  refine ⟨hloop, ?_, ?_⟩
  · cases pages with
    | nil => cases hserved
    | cons pg rest => simp
  · simp [getGitHubIssues, hloop]

/-- Witness for C1: the two pages of `twoPageClient`. -/
theorem getGitHubIssues_paging_witness :
    pagingLoop twoPageClient "golang" "go" 2 0 [] [] =
      some (.ok ([some { Title := some "first", Number := some 1,
                         CreatedAt := some (Time.Unix 1700000000 0), ClosedAt := none },
                  some { Title := some "second", Number := some 2,
                         CreatedAt := some (Time.Unix 1700000100 0),
                         ClosedAt := some (Time.Unix 1700000200 0) }],
        [0, 2])) :=
  (getGitHubIssues_paging twoPageClient "golang" "go"
    [([some { Title := some "first", Number := some 1,
              CreatedAt := some (Time.Unix 1700000000 0), ClosedAt := none }],
      { NextPage := 2 }),
     ([some { Title := some "second", Number := some 2,
              CreatedAt := some (Time.Unix 1700000100 0),
              ClosedAt := some (Time.Unix 1700000200 0) }],
      { NextPage := 0 })]
    2 ⟨0, 0⟩ ⟨rfl, by decide, rfl, rfl⟩ (Nat.le_refl 2)).1

/-! ## Mapping of the raw issues (C9) -/

theorem getGitHubIssues_returned (client : IssuesClient) (repoOwner repo : String)
    (fuel : Nat) (m m' : Metrics) (out : List GithubIssue)
    (h : getGitHubIssues client repoOwner repo fuel m = some (.ok (out, m'))) :
    ∃ allIssues requested,
      pagingLoop client repoOwner repo fuel 0 [] [] = some (.ok (allIssues, requested)) ∧
      out = allIssues.map (toGithubIssue repo) ∧
      m' = { m with githubAPICalls := m.githubAPICalls + 1 } := by
  unfold getGitHubIssues at h
  cases hloop : pagingLoop client repoOwner repo fuel 0 [] [] with
  | none => simp [hloop] at h
  | some res =>
    cases res with
    | error p => simp [hloop] at h
    | ok pair =>
      obtain ⟨allIssues, requested⟩ := pair
      simp only [hloop, Option.some.injEq, Except.ok.injEq, Prod.mk.injEq] at h
      exact ⟨allIssues, requested, rfl, h.1.symm, h.2.symm⟩

/-- C9: for every owner, every `repo` and every run of `getGitHubIssues`
that returns, the result maps the accumulated raw issues one-to-one and in
order: it has the length of the accumulated raw list, record k carries raw
issue k's title, number, created and closed timestamps, each replaced by the
zero value of its type when the raw field (or the raw issue) is nil, and
every record's Repo is the `repo` argument. -/
theorem getGitHubIssues_records (client : IssuesClient) (repoOwner repo : String)
    (fuel : Nat) (m m' : Metrics) (out : List GithubIssue)
    (h : getGitHubIssues client repoOwner repo fuel m = some (.ok (out, m'))) :
    ∃ allIssues requested,
      pagingLoop client repoOwner repo fuel 0 [] [] = some (.ok (allIssues, requested)) ∧
      out.length = allIssues.length ∧
      (∀ (k : Nat) (issue : Issue), allIssues[k]? = some (some issue) →
        out[k]? = some ({ Title := issue.Title.getD "", Number := issue.Number.getD 0,
                          Created_At := issue.CreatedAt.getD Time.zero,
                          Closed_At := issue.ClosedAt.getD Time.zero,
                          Repo := repo } : GithubIssue)) ∧
      (∀ k : Nat, allIssues[k]? = some none →
        out[k]? = some ({ Title := "", Number := 0, Created_At := Time.zero,
                          Closed_At := Time.zero, Repo := repo } : GithubIssue)) ∧
      (∀ record ∈ out, record.Repo = repo) := by
  obtain ⟨allIssues, requested, hloop, rfl, _⟩ :=
    getGitHubIssues_returned client repoOwner repo fuel m m' out h
  refine ⟨allIssues, requested, hloop, by simp, ?_, ?_, ?_⟩
  · intro k issue hk
    simp [List.getElem?_map, hk, toGithubIssue, GetTitle, GetNumber, GetCreatedAt, GetClosedAt]
  · intro k hk
    simp [List.getElem?_map, hk, toGithubIssue, GetTitle, GetNumber, GetCreatedAt, GetClosedAt]
  · intro record hrecord
    obtain ⟨issue, _, rfl⟩ := List.mem_map.mp hrecord
    rfl

/-- Witness for C9: owner "golang", repo "go", the two pages of
`twoPageClient`; both returned records have Repo "go". -/
theorem getGitHubIssues_records_witness :
    getGitHubIssues twoPageClient "golang" "go" 2 ⟨0, 0⟩ =
      some (.ok ([{ Title := "first", Number := 1, Created_At := Time.Unix 1700000000 0,
                    Closed_At := Time.zero, Repo := "go" },
                  { Title := "second", Number := 2, Created_At := Time.Unix 1700000100 0,
                    Closed_At := Time.Unix 1700000200 0, Repo := "go" }], ⟨1, 0⟩)) ∧
    List.all ([{ Title := "first", Number := 1, Created_At := Time.Unix 1700000000 0,
                 Closed_At := Time.zero, Repo := "go" },
               { Title := "second", Number := 2, Created_At := Time.Unix 1700000100 0,
                 Closed_At := Time.Unix 1700000200 0, Repo := "go" }] : List GithubIssue)
      (fun record => record.Repo == "go") = true :=
  ⟨rfl, by
    obtain ⟨_, _, _, _, _, _, hrepo⟩ :=
      getGitHubIssues_records twoPageClient "golang" "go" 2 ⟨0, 0⟩ ⟨1, 0⟩ _ rfl
    exact List.all_eq_true.mpr (fun record hrecord => by simp [hrepo record hrecord])⟩

/-! ## Counters (C6) -/

theorem runCall_counters (loc : Location) (c : Call) (m m' : Metrics) (h : runCall loc c m = some m') :
    m'.githubAPICalls = m.githubAPICalls + (if c.isGithub then 1 else 0) ∧
    m'.stackoverflowAPICalls = m.stackoverflowAPICalls + (if c.isGithub then 0 else 1) := by
  cases c with
  | github client repoOwner repo fuel =>
    simp only [runCall] at h
    cases hres : getGitHubIssues client repoOwner repo fuel m with
    | none => simp [hres] at h
    | some res =>
      cases res with
      | error p => simp [hres] at h
      | ok pair =>
        obtain ⟨out, m₁⟩ := pair
        simp only [hres, Option.some.injEq] at h
        subst h
        obtain ⟨_, _, _, _, rfl⟩ :=
          getGitHubIssues_returned client repoOwner repo fuel m _ out hres
        simp [Call.isGithub]
  | stackoverflow technology res =>
    simp only [runCall] at h
    cases hres : getSOQuestions loc technology res m with
    | error p => simp [hres] at h
    | ok pair =>
      obtain ⟨out, m₁⟩ := pair
      simp only [hres, Option.some.injEq] at h
      subst h
      obtain ⟨_, _, _, _, _, rfl⟩ := getSOQuestions_returned loc technology res m _ out hres
      simp [Call.isGithub]

theorem runCalls_counters (loc : Location) (calls : List Call) :
    ∀ (m m' : Metrics), runCalls loc calls m = some m' →
      m'.githubAPICalls = m.githubAPICalls + calls.countP Call.isGithub ∧
      m'.stackoverflowAPICalls =
        m.stackoverflowAPICalls + calls.countP (fun c => !c.isGithub) := by
  induction calls with
  | nil =>
    intro m m' h
    simp only [runCalls, Option.some.injEq] at h
    subst h
    simp
  | cons c cs ih =>
    intro m m' h
    simp only [runCalls] at h
    cases hc : runCall loc c m with
    | none => simp [hc] at h
    | some m₁ =>
      simp only [hc] at h
      obtain ⟨h1, h2⟩ := runCall_counters loc c m m₁ hc
      obtain ⟨h3, h4⟩ := ih m₁ m' h
      rw [h3, h4, h1, h2, List.countP_cons, List.countP_cons]
      cases c.isGithub <;> simp <;> omega

/-- C6: after any sequence of calls that all return, the counter
`github_api_calls_total` equals its prior value plus the number of calls of
`getGitHubIssues` in the sequence and `stackoverflow_api_calls_total` equals
its prior value plus the number of calls of `getSOQuestions`; so N returning
calls of one fetcher add N to its counter and leave the other counter
unchanged. -/
theorem api_call_counters (loc : Location) (calls : List Call) (m m' : Metrics)
    (h : runCalls loc calls m = some m') :
    (m'.githubAPICalls = m.githubAPICalls + calls.countP Call.isGithub ∧
      m'.stackoverflowAPICalls =
        m.stackoverflowAPICalls + calls.countP (fun c => !c.isGithub)) ∧
    ((∀ c ∈ calls, c.isGithub = true) →
      m'.githubAPICalls = m.githubAPICalls + calls.length ∧
      m'.stackoverflowAPICalls = m.stackoverflowAPICalls) ∧
    ((∀ c ∈ calls, c.isGithub = false) →
      m'.stackoverflowAPICalls = m.stackoverflowAPICalls + calls.length ∧
      m'.githubAPICalls = m.githubAPICalls) := by
  obtain ⟨h1, h2⟩ := runCalls_counters loc calls m m' h
  refine ⟨⟨h1, h2⟩, fun hall => ?_, fun hall => ?_⟩
  · have e1 : calls.countP Call.isGithub = calls.length :=
      List.countP_eq_length.mpr (fun c hc => hall c hc)
    have e2 : calls.countP (fun c => !c.isGithub) = 0 :=
      List.countP_eq_zero.mpr (fun c hc => by simp [hall c hc])
    rw [h1, h2, e1, e2]
    simp
  · have e1 : calls.countP Call.isGithub = 0 :=
      List.countP_eq_zero.mpr (fun c hc => by simp [hall c hc])
    have e2 : calls.countP (fun c => !c.isGithub) = calls.length :=
      List.countP_eq_length.mpr (fun c hc => by simp [hall c hc])
    rw [h1, h2, e1, e2]
    simp

/-- Witness for C6: two returning calls of `getGitHubIssues` and one of
`getSOQuestions`, starting from counters 5 and 7. -/
theorem api_call_counters_witness :
    runCalls UTC [.github twoPageClient "golang" "go" 2,
              .stackoverflow "Go" (.body (some (.obj [("items", .arr [])]))),
              .github twoPageClient "golang" "go" 5] ⟨5, 7⟩ = some ⟨7, 8⟩ ∧
    (⟨7, 8⟩ : Metrics).githubAPICalls = 5 + 2 ∧
    (⟨7, 8⟩ : Metrics).stackoverflowAPICalls = 7 + 1 :=
  ⟨rfl, (api_call_counters UTC
    [.github twoPageClient "golang" "go" 2,
     .stackoverflow "Go" (.body (some (.obj [("items", .arr [])]))),
     .github twoPageClient "golang" "go" 5] ⟨5, 7⟩ ⟨7, 8⟩ rfl).1⟩

end PgGo
